import Mathlib

/-!
# Verification of the Connect-Four websocket session coordinator

Shallow embedding of `src/app.py` (session registries `JOIN`/`WATCH`, the
`start`/`join`/`watch` connection handlers, the per-connection `play` move
loop, and `replay`) together with the Board Engine (`Connect4` from
`connect4.py`, which the repository imports but whose file is not present
under `src/`; it is modelled from the specification, §3 and §4.1).

Modelling conventions:
* A websocket connection is identified by a natural-number handle (`Conn`).
* Python's token→(game, connected) dicts `JOIN` and `WATCH` are modelled as
  partial maps `Token → Option SessionId`; the shared `(game, connected)`
  pair that both dict entries reference is held in a heap
  `sessions : SessionId → Option Session`, so that deleting a registry entry
  (`del JOIN[token]`) does not destroy the session object itself, exactly as
  dropping a Python reference does not.
* Each handler coroutine (`start`, `join`, `watch`) is embedded as a function
  from the server state and the list of move columns the connection will send
  (its inbound messages, already parsed as `play` events) to the final server
  state plus the ordered list of `(recipient, event)` pairs sent, with no
  interleaving from other connections (the claims under consideration are
  per-path properties).
* Python's `set.add` / `set.remove` on `connected` are `attach` (idempotent
  insert) and `removeConn` (`none` models the `KeyError` that `set.remove`
  raises on a missing element).
-/

/-- Decidable equality for `Except`, so that concrete runs of the fallible
operations below can be checked by `decide`. -/
instance {ε α : Type} [DecidableEq ε] [DecidableEq α] : DecidableEq (Except ε α) := fun x y =>
  match x, y with
  | .ok a, .ok b =>
    if h : a = b then .isTrue (by rw [h])
    else .isFalse (by intro hc; cases hc; exact h rfl)
  | .ok _, .error _ => .isFalse (fun hc => Except.noConfusion hc)
  | .error _, .ok _ => .isFalse (fun hc => Except.noConfusion hc)
  | .error e, .error f =>
    if h : e = f then .isTrue (by rw [h])
    else .isFalse (by intro hc; cases hc; exact h rfl)

/-- The two players, `PLAYER1` / `PLAYER2` of `connect4.py`. -/
inductive Player where
  | P1
  | P2
deriving DecidableEq

/-- Modelled from the spec: the Board Engine's `IllegalMoveError` taxonomy
(§4.1 / §7 — bad column, full column, out-of-turn); `connect4.py` is not
present under `src/`.  In the code these surface as `RuntimeError`s carrying
a message, which `app.py` forwards via `str(err)`. -/
inductive IllegalMoveError where
  | badColumn
  | fullColumn
  | outOfTurn
deriving DecidableEq

/-- The `str(err)` message of an `IllegalMoveError` (the spec fixes the error
taxonomy but not the message texts; these stand for `str(err)` in
`app.py` line 61). -/
def IllegalMoveError.message : IllegalMoveError → String
  | .badColumn => "Invalid column."
  | .fullColumn => "This column is full."
  | .outOfTurn => "It is not your turn."

/-- Modelled from the spec: the Board Engine state (§3).  The grid,
`lastPlayer` and `lastPlayerWon` are derived from the append-only
`moves` log of `(player, column, resultingRow)` entries, insertion order =
play order. -/
structure Connect4 where
  moves : List (Player × Nat × Nat)
deriving DecidableEq

/-- A fresh, empty game (`Connect4()` in `app.py` line 88). -/
def Connect4.new : Connect4 := ⟨[]⟩

/-- Number of discs already in column `c` (the column's occupied-cell count;
column fill order is bottom-up, so this is also the row the next disc in `c`
lands on). -/
def Connect4.colHeight (g : Connect4) (c : Nat) : Nat :=
  (g.moves.filter fun m => m.2.1 == c).length

/-- The player whose turn it logically is: PLAYER1 moves first and turns
alternate strictly (spec §3), so it is determined by `moveLog` parity. -/
def Connect4.currentPlayer (g : Connect4) : Player :=
  if g.moves.length % 2 = 0 then .P1 else .P2

/-- `lastPlayer`, derived from the most recent successful move (spec §3):
with strict alternation from PLAYER1 this is the opposite parity of
`currentPlayer`. -/
def Connect4.lastPlayer (g : Connect4) : Player :=
  if g.moves.length % 2 = 0 then .P2 else .P1

/-- The cell contents at integer coordinates (column, row); `none` off the
board or when empty.  The grid is derived from the move log. -/
def Connect4.cellAt (g : Connect4) (c r : Int) : Option Player :=
  (g.moves.find? fun m => ((m.2.1 : Int) == c) && ((m.2.2 : Int) == r)).map (·.1)

/-- Length of the run of `p`'s discs adjacent to (but not counting) cell
`(c, r)` in direction `(dc, dr)`, scanned outward up to the 3 cells a
connect-four can need (spec §4.1: incremental scan from the new cell
outward). -/
def Connect4.runLen (g : Connect4) (p : Player) (c r dc dr : Int) : Nat :=
  if g.cellAt (c + dc) (r + dr) = some p then
    if g.cellAt (c + 2 * dc) (r + 2 * dr) = some p then
      if g.cellAt (c + 3 * dc) (r + 3 * dr) = some p then 3 else 2
    else 1
  else 0

/-- Whether a run of 4 same-player cells passes through cell `(c, r)` in any
of the four directions (horizontal, vertical, the two diagonals), spec §4.1. -/
def Connect4.winThrough (g : Connect4) (p : Player) (c r : Int) : Bool :=
  decide (4 ≤ g.runLen p c r 1 0 + g.runLen p c r (-1) 0 + 1) ||
  decide (4 ≤ g.runLen p c r 0 1 + g.runLen p c r 0 (-1) + 1) ||
  decide (4 ≤ g.runLen p c r 1 1 + g.runLen p c r (-1) (-1) + 1) ||
  decide (4 ≤ g.runLen p c r 1 (-1) + g.runLen p c r (-1) 1 + 1)

/-- `lastPlayerWon`: whether the most recent move completed a run of four
(spec §3, derived from the most recent successful move). -/
def Connect4.lastPlayerWon (g : Connect4) : Bool :=
  match g.moves.getLast? with
  | none => false
  | some (p, c, r) => g.winThrough p (c : Int) (r : Int)

/-- Modelled from the spec: the Board Engine operation
`play(player, column) → row` (§4.1); `connect4.py` is not present under
`src/`.  Fails with `IllegalMoveError` if the column is out of range
`[0, 6]`, if the column already holds 6 discs, or if `player` is not the
player whose turn it logically is (the handler in `src/app.py` performs no
turn check of its own and still reports out-of-turn moves as caught errors,
so in this implementation the turn check lives here, as §4.1 allows).
On success places the disc in the lowest empty cell, returns that row, and
appends to the move log; failures are side-effect-free. -/
def Connect4.play (g : Connect4) (p : Player) (column : Nat) :
    Except IllegalMoveError (Nat × Connect4) :=
  if 7 ≤ column then .error .badColumn
  else if 6 ≤ g.colHeight column then .error .fullColumn
  else if p ≠ g.currentPlayer then .error .outOfTurn
  else .ok (g.colHeight column, ⟨g.moves ++ [(p, column, g.colHeight column)]⟩)

/-- Capability tokens are opaque strings (`secrets.token_urlsafe`). -/
abbrev Token := String

/-- A websocket connection handle. -/
abbrev Conn := Nat

/-- Identity of a shared `(game, connected)` session object. -/
abbrev SessionId := Nat

/-- The structured events of `app.py` (§6): `init` (tokens, to the starter),
`play` (broadcast form, with player and row), `win`, and `error`. -/
inductive Event where
  | init (joinTok watchTok : Token)
  | play (player : Player) (column row : Nat)
  | win (player : Player)
  | error (message : String)
deriving DecidableEq

/-- Whether an event is the token-carrying `init` event. -/
def Event.isInit : Event → Bool
  | .init _ _ => true
  | _ => false

/-- One session object: the Board Engine instance and the Connection Group
(`game, connected` in `app.py`), shared by reference between the `JOIN` and
`WATCH` registry entries and every attached handler. -/
structure Session where
  game : Connect4
  connected : List Conn
deriving DecidableEq

/-- The process-wide server state: the `JOIN` and `WATCH` token registries
(`app.py` lines 13–14) and the heap of live session objects. -/
structure ServerState where
  join : Token → Option SessionId
  watch : Token → Option SessionId
  sessions : SessionId → Option Session

/-- A server with no registered tokens and no sessions. -/
def emptyServer : ServerState :=
  { join := fun _ => none, watch := fun _ => none, sessions := fun _ => none }

/-- `resolveJoin`: dictionary lookup `JOIN[token]`, `none` = `KeyError` =
`NotFound` (a normal outcome, spec §4.3). -/
def resolveJoin (st : ServerState) (t : Token) : Option SessionId :=
  st.join t

/-- `resolveWatch`: dictionary lookup `WATCH[token]`. -/
def resolveWatch (st : ServerState) (t : Token) : Option SessionId :=
  st.watch t

/-- `connected.add(websocket)`: idempotent set insertion. -/
def attach (s : List Conn) (c : Conn) : List Conn :=
  if c ∈ s then s else c :: s

/-- `connected.remove(websocket)`: Python `set.remove` removes a present
element and raises `KeyError` (modelled as `none`) when the element is not a
member (`app.py` lines 136 and 160). -/
def removeConn (s : List Conn) (c : Conn) : Option (List Conn) :=
  if c ∈ s then some (s.erase c) else none

/-- `destroySession`: `del JOIN[join_token]; del WATCH[watch_token]`
(`app.py` lines 112–113).  Only the two registry entries are removed; the
session heap is untouched (the Python objects survive while other handlers
reference them). -/
def destroySession (st : ServerState) (jt wt : Token) : ServerState :=
  { st with
    join := fun t => if t = jt then none else st.join t
    watch := fun t => if t = wt then none else st.watch t }

/-- One iteration of the player move loop of `app.py`'s `play` (lines
49–77) for one inbound column: call `game.play`; on error send a single
`error` event to the requesting connection `ws` only; on success broadcast a
`play` event to every member of `connected` and, if `last_player_won`, also
broadcast a `win` event naming `game.last_player`.  Returns the game state
after the iteration and the ordered `(recipient, event)` sends. -/
def playStep (ws : Conn) (g : Connect4) (p : Player) (connected : List Conn)
    (column : Nat) : Connect4 × List (Conn × Event) :=
  match g.play p column with
  | .error e => (g, [(ws, Event.error e.message)])
  | .ok (row, g') =>
    let playEvts := connected.map fun c => (c, Event.play p column row)
    if g'.lastPlayerWon then
      (g', playEvts ++ connected.map fun c => (c, Event.win g'.lastPlayer))
    else
      (g', playEvts)

/-- The whole `async for message in websocket` move loop of `app.py`'s
`play`, over the list of columns this connection sends before it closes. -/
def playLoop (ws : Conn) (g : Connect4) (p : Player) (connected : List Conn) :
    List Nat → Connect4 × List (Conn × Event)
  | [] => (g, [])
  | column :: rest =>
    let step := playStep ws g p connected column
    let tail := playLoop ws step.1 p connected rest
    (tail.1, step.2 ++ tail.2)

/-- `replay(websocket, game)` (`app.py` lines 26–41): send one `play` event
per entry of `game.moves` (as snapshotted by `game.moves.copy()`), in move
order, to this connection alone. -/
def replayEvents (ws : Conn) (g : Connect4) : List (Conn × Event) :=
  g.moves.map fun m => (ws, Event.play m.1 m.2.1 m.2.2)

/-- Register the freshly minted join/watch tokens of a new session in the
two registries (`JOIN[join_token] = game, connected` and
`WATCH[watch_token] = game, connected`, `app.py` lines 91–95). -/
def registerSession (st : ServerState) (jt wt : Token) (sid : SessionId) : ServerState :=
  { st with
    join := fun t => if t = jt then some sid else st.join t
    watch := fun t => if t = wt then some sid else st.watch t }

/-- Write back the (in Python, mutated-in-place) session object `sid`. -/
def updateSessions (st : ServerState) (sid : SessionId) (sess : Session) : ServerState :=
  { st with sessions := fun i => if i = sid then some sess else st.sessions i }

/-- The lifecycle of a starting connection, `app.py`'s `start` (lines
80–113): allocate a fresh game and the connection set `{websocket}`, mint
the join/watch tokens and register both (pointing at the same session
object, here `sid`; `jt`, `wt` and `sid` stand for the fresh values from
`secrets.token_urlsafe`), send the `init` event with both tokens to this
connection only, run the PLAYER1 move loop until the connection closes, and
finally — on any exit — `del` both registry entries.  `start` never removes
`websocket` from `connected`. -/
def startConn (st : ServerState) (ws : Conn) (jt wt : Token) (sid : SessionId)
    (inbound : List Nat) : ServerState × List (Conn × Event) :=
  let game := Connect4.new
  let connected := [ws]
  let st1 := updateSessions (registerSession st jt wt sid) sid ⟨game, connected⟩
  let res := playLoop ws game .P1 connected inbound
  let st2 := updateSessions st1 sid ⟨res.1, connected⟩
  (destroySession st2 jt wt, (ws, Event.init jt wt) :: res.2)

/-- The lifecycle of a joining connection, `app.py`'s `join` (lines
139–160): look the token up in `JOIN` (on `KeyError` send one `error` event
and return, closing the connection), `connected.add(websocket)`, replay the
move history to this connection alone, run the PLAYER2 move loop, and
finally `connected.remove(websocket)`.  A `none` result models an uncaught
exception: a registry entry referencing a session that is not in the heap
(impossible for states built by these operations) or `set.remove` raising
`KeyError`. -/
def joinConn (st : ServerState) (ws : Conn) (t : Token) (inbound : List Nat) :
    Option (ServerState × List (Conn × Event)) :=
  match st.join t with
  | none => some (st, [(ws, Event.error "Game not found.")])
  | some sid =>
    match st.sessions sid with
    | none => none
    | some sess =>
      let conn1 := attach sess.connected ws
      let catchup := replayEvents ws sess.game
      let res := playLoop ws sess.game .P2 conn1 inbound
      match removeConn conn1 ws with
      | none => none
      | some conn2 =>
        some (updateSessions st sid ⟨res.1, conn2⟩, catchup ++ res.2)

/-- The lifecycle of a watching connection, `app.py`'s `watch` (lines
116–136): look the token up in `WATCH` (on `KeyError` send one `error`
event and return), `connected.add(websocket)`, replay the move history to
this connection alone, wait for the connection to close without receiving
anything, and finally `connected.remove(websocket)`. -/
def watchConn (st : ServerState) (ws : Conn) (t : Token) :
    Option (ServerState × List (Conn × Event)) :=
  match st.watch t with
  | none => some (st, [(ws, Event.error "Game not found.")])
  | some sid =>
    match st.sessions sid with
    | none => none
    | some sess =>
      let conn1 := attach sess.connected ws
      let catchup := replayEvents ws sess.game
      match removeConn conn1 ws with
      | none => none
      | some conn2 =>
        some (updateSessions st sid ⟨sess.game, conn2⟩, catchup)

/-- Concrete fixture: a server holding one session (id 0) whose game has one
move, PLAYER1 in column 3, with the starting connection 0 attached; the
state a single `start` connection reaches after playing once.  Used to
instantiate the theorems below on concrete inputs. -/
def liveServer : ServerState :=
  { join := fun t => if t = "j" then some 0 else none
    watch := fun t => if t = "w" then some 0 else none
    sessions := fun i => if i = 0 then some ⟨⟨[(.P1, 3, 0)]⟩, [0]⟩ else none }

/-!
## Helper lemmas
-/

/-- Inversion for a successful `play`: the mover was the player whose turn
it was, the returned row is the column's fill height, and the move was
appended to the log. -/
theorem Connect4.play_ok_elim {g : Connect4} {p : Player} {column row : Nat}
    {g' : Connect4} (h : g.play p column = .ok (row, g')) :
    p = g.currentPlayer ∧ row = g.colHeight column ∧
      g' = ⟨g.moves ++ [(p, column, row)]⟩ := by
  unfold Connect4.play at h
  split at h
  · exact absurd h (by simp)
  · split at h
    · exact absurd h (by simp)
    · split at h
      · exact absurd h (by simp)
      · rename_i hp
        rw [not_ne_iff] at hp
        simp only [Except.ok.injEq, Prod.mk.injEq] at h
        refine ⟨hp, h.1.symm, ?_⟩
        rw [← h.2, h.1]

/-- Appending a move by the player whose turn it was makes that player the
`lastPlayer`. -/
theorem Connect4.lastPlayer_append (g : Connect4) (p : Player) (c r : Nat)
    (hp : p = g.currentPlayer) :
    (Connect4.mk (g.moves ++ [(p, c, r)])).lastPlayer = p := by
  unfold Connect4.currentPlayer at hp
  unfold Connect4.lastPlayer
  simp only [List.length_append, List.length_singleton]
  rcases Nat.mod_two_eq_zero_or_one g.moves.length with h2 | h2
  · have h1 : (g.moves.length + 1) % 2 = 1 := by omega
    rw [h2] at hp
    norm_num at hp
    simp [h1, hp]
  · have h1 : (g.moves.length + 1) % 2 = 0 := by omega
    rw [h2] at hp
    norm_num at hp
    simp [h1, hp]

/-- A successful `play` makes `playStep` broadcast the `play` event to every
member of `connected`, followed by the `win` broadcast exactly when the move
won. -/
theorem playStep_ok_eq (ws : Conn) (g : Connect4) (p : Player)
    (connected : List Conn) (column row : Nat) (g' : Connect4)
    (h : g.play p column = .ok (row, g')) :
    playStep ws g p connected column =
      (g', (connected.map fun c => (c, Event.play p column row)) ++
        if g'.lastPlayerWon then connected.map fun c => (c, Event.win g'.lastPlayer)
        else []) := by
  unfold playStep
  rw [h]
  by_cases hw : g'.lastPlayerWon <;> simp [hw]

/-- A failed `play` makes `playStep` send a single `error` event to the
requesting connection and leave the game unchanged. -/
theorem playStep_error_eq (ws : Conn) (g : Connect4) (p : Player)
    (connected : List Conn) (column : Nat) (e : IllegalMoveError)
    (h : g.play p column = .error e) :
    playStep ws g p connected column = (g, [(ws, Event.error e.message)]) := by
  unfold playStep
  rw [h]

/-- The move loop never emits the token-carrying `init` event. -/
theorem playStep_no_init (ws : Conn) (g : Connect4) (p : Player)
    (connected : List Conn) (column : Nat) :
    ∀ ev ∈ (playStep ws g p connected column).2, ev.2.isInit = false := by
  intro ev hev
  cases hpl : g.play p column with
  | error e =>
    rw [playStep_error_eq ws g p connected column e hpl] at hev
    simp only [List.mem_singleton] at hev
    rw [hev]
    rfl
  | ok v =>
    obtain ⟨row, g'⟩ := v
    rw [playStep_ok_eq ws g p connected column row g' hpl] at hev
    simp only [List.mem_append, List.mem_map] at hev
    rcases hev with ⟨c, _, rfl⟩ | hwin
    · rfl
    · by_cases hw : g'.lastPlayerWon
      · simp only [hw, if_true, List.mem_map] at hwin
        obtain ⟨c, _, rfl⟩ := hwin
        rfl
      · simp [hw] at hwin

/-- No iteration of the move loop emits an `init` event. -/
theorem playLoop_no_init (ws : Conn) (p : Player) (connected : List Conn)
    (inbound : List Nat) :
    ∀ g : Connect4, ∀ ev ∈ (playLoop ws g p connected inbound).2,
      ev.2.isInit = false := by
  induction inbound with
  | nil => intro g ev hev; simp [playLoop] at hev
  | cons column rest ih =>
    intro g ev hev
    simp only [playLoop, List.mem_append] at hev
    rcases hev with hstep | htail
    · exact playStep_no_init ws g p connected column ev hstep
    · exact ih _ ev htail

/-- Every replayed event goes to the newly attached connection and is a
`play` event (never `init`). -/
theorem replayEvents_shape (ws : Conn) (g : Connect4) :
    ∀ ev ∈ replayEvents ws g, ev.1 = ws ∧ ev.2.isInit = false := by
  intro ev hev
  simp only [replayEvents, List.mem_map] at hev
  obtain ⟨m, _, rfl⟩ := hev
  exact ⟨rfl, rfl⟩

/-- A connection is always a member of the group right after attaching. -/
theorem mem_attach_self (s : List Conn) (c : Conn) : c ∈ attach s c := by
  by_cases h : c ∈ s <;> simp [attach, h]

/-- `set.remove` directly after `set.add` always succeeds. -/
theorem removeConn_attach (s : List Conn) (c : Conn) :
    removeConn (attach s c) c = some ((attach s c).erase c) := by
  simp [removeConn, mem_attach_self]

/-- Attaching a fresh connection and then removing it restores the original
group. -/
theorem removeConn_attach_fresh (s : List Conn) (c : Conn) (h : c ∉ s) :
    removeConn (attach s c) c = some s := by
  rw [removeConn_attach]
  simp [attach, h]

/-!
## Claim theorems
-/

/-- C1 counterexample: turn legality is enforced inside the Board Engine,
not in the handler.  After PLAYER1's opening move, the Board Engine's `play`
itself rejects PLAYER1's immediate second move with the out-of-turn
`IllegalMoveError`, and the handler's move-loop iteration merely forwards
that engine error to the offending connection — the handler performs no
turn determination of its own before calling `play`. -/
theorem turn_enforced_in_handler_cex :
    (Connect4.mk [(.P1, 0, 0)]).play .P1 1 = .error .outOfTurn ∧
    playStep 7 (Connect4.mk [(.P1, 0, 0)]) .P1 [7] 1 =
      (Connect4.mk [(.P1, 0, 0)], [(7, Event.error IllegalMoveError.outOfTurn.message)]) := by
  decide

/-- C1 (amended): the handler forwards the connection's player slot to the
Board Engine's `play` without any turn check of its own; the Board Engine
rejects out-of-turn moves, and such an attempt produces the same outcome as
any illegal board move — a single `error` event sent only to the offending
connection, with no broadcast and no state change. -/
theorem out_of_turn_same_error_outcome (ws : Conn) (g : Connect4) (p : Player)
    (connected : List Conn) (column : Nat) (h : p ≠ g.currentPlayer) :
    ∃ e : IllegalMoveError, g.play p column = .error e ∧
      playStep ws g p connected column = (g, [(ws, Event.error e.message)]) := by
  have he : ∃ e, g.play p column = .error e := by
    unfold Connect4.play
    by_cases h7 : 7 ≤ column
    · exact ⟨.badColumn, by simp [h7]⟩
    · by_cases h6 : 6 ≤ g.colHeight column
      · exact ⟨.fullColumn, by simp [h7, h6]⟩
      · exact ⟨.outOfTurn, by simp [h7, h6, h]⟩
  obtain ⟨e, he⟩ := he
  exact ⟨e, he, playStep_error_eq ws g p connected column e he⟩

/-- C1 witness: PLAYER2 attempting the very first move (PLAYER1's turn). -/
theorem out_of_turn_same_error_outcome_witness :
    (Player.P2 ≠ Connect4.new.currentPlayer) ∧
    ∃ e : IllegalMoveError, Connect4.new.play .P2 0 = .error e ∧
      playStep 5 Connect4.new .P2 [5, 9] 0 = (Connect4.new, [(5, Event.error e.message)]) :=
  ⟨by decide, out_of_turn_same_error_outcome 5 Connect4.new .P2 [5, 9] 0 (by decide)⟩

/-- C2: every move the Board Engine accepts makes the handler broadcast
exactly one `play` event `(player, column, resulting row)` to every
connection of the Connection Group, followed by exactly one `win` event if
and only if `lastPlayerWon` holds after the move; the `win` event names the
mover, who is `lastPlayer` of the updated game. -/
theorem accepted_move_broadcasts (ws : Conn) (g : Connect4) (p : Player)
    (connected : List Conn) (column row : Nat) (g' : Connect4)
    (h : g.play p column = .ok (row, g')) :
    playStep ws g p connected column =
      (g', (connected.map fun c => (c, Event.play p column row)) ++
        if g'.lastPlayerWon then connected.map fun c => (c, Event.win g'.lastPlayer)
        else []) ∧
    g'.lastPlayer = p := by
  refine ⟨playStep_ok_eq ws g p connected column row g' h, ?_⟩
  obtain ⟨hp, _, hg⟩ := Connect4.play_ok_elim h
  rw [hg]
  exact Connect4.lastPlayer_append g p column row hp

/-- C2 witness: PLAYER1's opening move in column 3 broadcast to the group
`[0, 1]`. -/
theorem accepted_move_broadcasts_witness :
    Connect4.new.play .P1 3 = .ok (0, ⟨[(.P1, 3, 0)]⟩) ∧
    playStep 0 Connect4.new .P1 [0, 1] 3 =
      (⟨[(.P1, 3, 0)]⟩, ([0, 1].map fun c => (c, Event.play .P1 3 0)) ++
        if (Connect4.mk [(.P1, 3, 0)]).lastPlayerWon then
          [0, 1].map fun c => (c, Event.win (Connect4.mk [(.P1, 3, 0)]).lastPlayer)
        else []) ∧
    (Connect4.mk [(.P1, 3, 0)]).lastPlayer = .P1 :=
  ⟨by decide,
   accepted_move_broadcasts 0 Connect4.new .P1 [0, 1] 3 0 ⟨[(.P1, 3, 0)]⟩ (by decide)⟩

/-- C3: a move that fails with `IllegalMoveError` produces exactly one
`error` event, sent to the requesting connection only, with no broadcast and
no change to the game state, and the move loop continues with the remaining
inbound messages (the failure is not fatal). -/
theorem illegal_move_error_local (ws : Conn) (g : Connect4) (p : Player)
    (connected : List Conn) (column : Nat) (e : IllegalMoveError)
    (rest : List Nat) (h : g.play p column = .error e) :
    playStep ws g p connected column = (g, [(ws, Event.error e.message)]) ∧
    playLoop ws g p connected (column :: rest) =
      ((playLoop ws g p connected rest).1,
        (ws, Event.error e.message) :: (playLoop ws g p connected rest).2) := by
  have h1 := playStep_error_eq ws g p connected column e h
  refine ⟨h1, ?_⟩
  simp [playLoop, h1]

/-- C3 witness: an out-of-range column (9) from PLAYER1, followed by a
further message showing the loop continues. -/
theorem illegal_move_error_local_witness :
    Connect4.new.play .P1 9 = .error .badColumn ∧
    (playStep 4 Connect4.new .P1 [4, 8] 9 =
      (Connect4.new, [(4, Event.error IllegalMoveError.badColumn.message)]) ∧
     playLoop 4 Connect4.new .P1 [4, 8] (9 :: [3]) =
      ((playLoop 4 Connect4.new .P1 [4, 8] [3]).1,
        (4, Event.error IllegalMoveError.badColumn.message) ::
          (playLoop 4 Connect4.new .P1 [4, 8] [3]).2)) :=
  ⟨by decide, illegal_move_error_local 4 Connect4.new .P1 [4, 8] 9 .badColumn [3] (by decide)⟩

/-- C4: however the starting connection's handling terminates, the `finally`
epilogue of `start` removes both the join and the watch token from their
registries: afterwards `resolveJoin`/`resolveWatch` on either token return
`NotFound` (`none`).  Freshness of the two minted tokens (they are not
registered in the opposite namespace and differ from each other) is the
`secrets.token_urlsafe` assumption. -/
theorem start_termination_invalidates_tokens (st : ServerState) (ws : Conn)
    (jt wt : Token) (sid : SessionId) (inbound : List Nat)
    (hjw : st.join wt = none) (hwj : st.watch jt = none) (hne : jt ≠ wt) :
    resolveJoin (startConn st ws jt wt sid inbound).1 jt = none ∧
    resolveWatch (startConn st ws jt wt sid inbound).1 wt = none ∧
    resolveJoin (startConn st ws jt wt sid inbound).1 wt = none ∧
    resolveWatch (startConn st ws jt wt sid inbound).1 jt = none := by
  have hne' : wt ≠ jt := Ne.symm hne
  refine ⟨?_, ?_, ?_, ?_⟩ <;>
    simp [startConn, resolveJoin, resolveWatch, destroySession, updateSessions,
      registerSession, hjw, hwj, hne, hne']

/-- C4 witness: a session started on an empty server with tokens "j" and
"w"; after the handler finishes, all four resolutions are `NotFound`. -/
theorem start_termination_invalidates_tokens_witness :
    (emptyServer.join "w" = none ∧ emptyServer.watch "j" = none ∧ "j" ≠ "w") ∧
    (resolveJoin (startConn emptyServer 0 "j" "w" 0 [3]).1 "j" = none ∧
     resolveWatch (startConn emptyServer 0 "j" "w" 0 [3]).1 "w" = none ∧
     resolveJoin (startConn emptyServer 0 "j" "w" 0 [3]).1 "w" = none ∧
     resolveWatch (startConn emptyServer 0 "j" "w" 0 [3]).1 "j" = none) :=
  ⟨⟨rfl, rfl, by decide⟩,
   start_termination_invalidates_tokens emptyServer 0 "j" "w" 0 [3] rfl rfl (by decide)⟩

/-- C7: a join or watch attempt with a token absent from the corresponding
registry sends exactly one `error` event to that connection and terminates
the handler (closing the connection) with the entire server state — both
registries, every session's game, and every Connection Group — unchanged,
whatever moves the connection would have sent. -/
theorem unknown_token_single_error (st : ServerState) (ws ws2 : Conn)
    (t u : Token) (inbound : List Nat)
    (hj : st.join t = none) (hw : st.watch u = none) :
    joinConn st ws t inbound = some (st, [(ws, Event.error "Game not found.")]) ∧
    watchConn st ws2 u = some (st, [(ws2, Event.error "Game not found.")]) := by
  constructor
  · simp [joinConn, hj]
  · simp [watchConn, hw]

/-- C7 witness: unknown tokens on the live one-session server. -/
theorem unknown_token_single_error_witness :
    (liveServer.join "nope" = none ∧ liveServer.watch "nah" = none) ∧
    (joinConn liveServer 1 "nope" [3] =
      some (liveServer, [(1, Event.error "Game not found.")]) ∧
     watchConn liveServer 2 "nah" =
      some (liveServer, [(2, Event.error "Game not found.")])) :=
  ⟨⟨rfl, rfl⟩, unknown_token_single_error liveServer 1 2 "nope" "nah" [3] rfl rfl⟩

/-- C9 counterexample: the detach operation actually used by the handlers is
Python's `set.remove`, which raises `KeyError` (modelled as `none`) on a
connection that is not a member — it is not a safe no-op that returns the
group unchanged. -/
theorem detach_nonmember_raises_cex :
    removeConn [] 0 = none ∧ removeConn [] 0 ≠ some [] := by
  decide

/-- C9 (amended): detaching a member removes it from the group; detaching a
connection that is not a member fails with `KeyError` instead of being a
no-op.  (In `app.py` every `connected.remove(websocket)` runs in a `finally`
after `connected.add(websocket)`, so the failing case is never reached.) -/
theorem detach_member_removes (s : List Conn) (c : Conn) :
    (c ∈ s → removeConn s c = some (s.erase c)) ∧
    (c ∉ s → removeConn s c = none) := by
  constructor <;> intro h <;> simp [removeConn, h]

/-- C9 witness: removing the member 3 from the group `[3, 5]` succeeds and
removing the non-member 9 fails. -/
theorem detach_member_removes_witness :
    ((3 : Conn) ∈ [3, 5] ∧ removeConn [3, 5] 3 = some (([3, 5] : List Conn).erase 3)) ∧
    ((9 : Conn) ∉ [3, 5] ∧ removeConn [3, 5] 9 = none) :=
  ⟨⟨by decide, (detach_member_removes [3, 5] 3).1 (by decide)⟩,
   ⟨by decide, (detach_member_removes [3, 5] 9).2 (by decide)⟩⟩

/-- C5 counterexample: the starting (PLAYER1) connection is never removed
from the Connection Group.  After a `start` handler runs to completion (the
connection has closed), the session object still lists connection 0 as a
member: `start` has no `connected.remove(websocket)` in its `finally`, so a
closed connection can remain a member of a Connection Group. -/
theorem starter_never_detached_cex :
    ∃ sess : Session,
      (startConn emptyServer 0 "j" "w" 0 []).1.sessions 0 = some sess ∧
        (0 : Conn) ∈ sess.connected :=
  ⟨⟨Connect4.new, [0]⟩, rfl, by decide⟩

/-- C5 (amended): joining and watching connections are removed from the
Connection Group when they close (their `finally` runs
`connected.remove(websocket)`), and the group is restored to its previous
membership; the starting connection is **not** detached on close, but its
close destroys the session, removing both tokens from the registries. -/
theorem close_detach_policy (st : ServerState) (ws ws2 : Conn)
    (t u jt wt : Token) (inbound inbound2 : List Nat)
    (sid sid2 sid3 : SessionId) (sess sess2 : Session)
    (hj : st.join t = some sid) (hs : st.sessions sid = some sess)
    (hws : ws ∉ sess.connected)
    (hw : st.watch u = some sid2) (hs2 : st.sessions sid2 = some sess2)
    (hws2 : ws ∉ sess2.connected) :
    (∃ st' evts, joinConn st ws t inbound = some (st', evts) ∧
       ∃ sess', st'.sessions sid = some sess' ∧
         sess'.connected = sess.connected ∧ ws ∉ sess'.connected) ∧
    (∃ st' evts, watchConn st ws u = some (st', evts) ∧
       ∃ sess', st'.sessions sid2 = some sess' ∧
         sess'.connected = sess2.connected ∧ ws ∉ sess'.connected) ∧
    (resolveJoin (startConn st ws2 jt wt sid3 inbound2).1 jt = none ∧
     resolveWatch (startConn st ws2 jt wt sid3 inbound2).1 wt = none) := by
  refine ⟨?_, ?_, ?_⟩
  · have hrem := removeConn_attach_fresh sess.connected ws hws
    have hjoin : joinConn st ws t inbound =
        some (updateSessions st sid
                ⟨(playLoop ws sess.game .P2 (attach sess.connected ws) inbound).1,
                 sess.connected⟩,
              replayEvents ws sess.game ++
                (playLoop ws sess.game .P2 (attach sess.connected ws) inbound).2) := by
      simp only [joinConn, hj, hs, hrem]
    refine ⟨_, _, hjoin,
      ⟨⟨(playLoop ws sess.game .P2 (attach sess.connected ws) inbound).1, sess.connected⟩,
       ?_, rfl, hws⟩⟩
    simp [updateSessions]
  · have hrem := removeConn_attach_fresh sess2.connected ws hws2
    have hwatch : watchConn st ws u =
        some (updateSessions st sid2 ⟨sess2.game, sess2.connected⟩,
              replayEvents ws sess2.game) := by
      simp only [watchConn, hw, hs2, hrem]
    refine ⟨_, _, hwatch, ⟨⟨sess2.game, sess2.connected⟩, ?_, rfl, hws2⟩⟩
    simp [updateSessions]
  · constructor <;>
      simp [startConn, resolveJoin, resolveWatch, destroySession, updateSessions,
        registerSession]

/-- C5 witness: connection 1 joins and connection 1 watches the live
one-session server (group `[0]`) and is detached again on close; a started
session's tokens are removed on the starter's close. -/
theorem close_detach_policy_witness :
    (liveServer.join "j" = some 0 ∧
     liveServer.sessions 0 = some ⟨⟨[(.P1, 3, 0)]⟩, [0]⟩ ∧
     (1 : Conn) ∉ ([0] : List Conn) ∧
     liveServer.watch "w" = some 0) ∧
    ((∃ st' evts, joinConn liveServer 1 "j" [3] = some (st', evts) ∧
       ∃ sess', st'.sessions 0 = some sess' ∧
         sess'.connected = (Session.mk ⟨[(.P1, 3, 0)]⟩ [0]).connected ∧
           (1 : Conn) ∉ sess'.connected) ∧
     (∃ st' evts, watchConn liveServer 1 "w" = some (st', evts) ∧
       ∃ sess', st'.sessions 0 = some sess' ∧
         sess'.connected = (Session.mk ⟨[(.P1, 3, 0)]⟩ [0]).connected ∧
           (1 : Conn) ∉ sess'.connected) ∧
     (resolveJoin (startConn liveServer 2 "j2" "w2" 1 []).1 "j2" = none ∧
      resolveWatch (startConn liveServer 2 "j2" "w2" 1 []).1 "w2" = none)) :=
  ⟨⟨rfl, rfl, by decide, rfl⟩,
   close_detach_policy liveServer 1 2 "j" "w" "j2" "w2" [3] [] 0 0 1
     ⟨⟨[(.P1, 3, 0)]⟩, [0]⟩ ⟨⟨[(.P1, 3, 0)]⟩, [0]⟩ rfl rfl (by decide) rfl rfl (by decide)⟩

/-- C6: a connection joining or watching with a valid token first receives,
alone, one `play` event per entry of the move log as snapshotted at replay
start, in move-log order, before any event of its subsequent loop; no
recorded move is omitted. -/
theorem replay_full_history_first (st : ServerState) (ws : Conn) (t u : Token)
    (inbound : List Nat) (sid sid2 : SessionId) (sess sess2 : Session)
    (hj : st.join t = some sid) (hs : st.sessions sid = some sess)
    (hw : st.watch u = some sid2) (hs2 : st.sessions sid2 = some sess2) :
    (∃ st' loopEvts, joinConn st ws t inbound =
        some (st', replayEvents ws sess.game ++ loopEvts)) ∧
    (∃ st', watchConn st ws u = some (st', replayEvents ws sess2.game)) ∧
    replayEvents ws sess.game =
      sess.game.moves.map (fun m => (ws, Event.play m.1 m.2.1 m.2.2)) ∧
    (∀ ev ∈ replayEvents ws sess.game, ev.1 = ws) := by
  refine ⟨?_, ?_, rfl, fun ev hev => (replayEvents_shape ws sess.game ev hev).1⟩
  · have hrem := removeConn_attach sess.connected ws
    have hjoin : joinConn st ws t inbound =
        some (updateSessions st sid
                ⟨(playLoop ws sess.game .P2 (attach sess.connected ws) inbound).1,
                 (attach sess.connected ws).erase ws⟩,
              replayEvents ws sess.game ++
                (playLoop ws sess.game .P2 (attach sess.connected ws) inbound).2) := by
      simp only [joinConn, hj, hs, hrem]
    exact ⟨_, _, hjoin⟩
  · have hrem := removeConn_attach sess2.connected ws
    have hwatch : watchConn st ws u =
        some (updateSessions st sid2
                ⟨sess2.game, (attach sess2.connected ws).erase ws⟩,
              replayEvents ws sess2.game) := by
      simp only [watchConn, hw, hs2, hrem]
    exact ⟨_, hwatch⟩

/-- C6 witness: connection 1 joins (and connection 1 watches) the live
server whose game holds one move; the single recorded move is replayed to it
alone before its loop events. -/
theorem replay_full_history_first_witness :
    (liveServer.join "j" = some 0 ∧ liveServer.watch "w" = some 0 ∧
     liveServer.sessions 0 = some ⟨⟨[(.P1, 3, 0)]⟩, [0]⟩) ∧
    ((∃ st' loopEvts, joinConn liveServer 1 "j" [3] =
        some (st', replayEvents 1 ⟨[(.P1, 3, 0)]⟩ ++ loopEvts)) ∧
     (∃ st', watchConn liveServer 1 "w" =
        some (st', replayEvents 1 ⟨[(.P1, 3, 0)]⟩)) ∧
     replayEvents 1 ⟨[(.P1, 3, 0)]⟩ =
      (Connect4.mk [(.P1, 3, 0)]).moves.map (fun m => (1, Event.play m.1 m.2.1 m.2.2)) ∧
     (∀ ev ∈ replayEvents 1 ⟨[(.P1, 3, 0)]⟩, ev.1 = 1)) :=
  ⟨⟨rfl, rfl, rfl⟩,
   replay_full_history_first liveServer 1 "j" "w" [3] 0 0
     ⟨⟨[(.P1, 3, 0)]⟩, [0]⟩ ⟨⟨[(.P1, 3, 0)]⟩, [0]⟩ rfl rfl rfl rfl⟩

/-- C8: a started session's `init` event carrying the two tokens is the
first event the handler sends, goes to the starting connection only, and is
the only `init` event it ever emits; join and watch handlers never emit an
`init` event at all, so no token-carrying event ever reaches a joining or
watching connection. -/
theorem init_event_only_to_starter (st : ServerState) (ws ws2 ws3 : Conn)
    (jt wt t u : Token) (sid : SessionId) (inbound inbound2 : List Nat) :
    (startConn st ws jt wt sid inbound).2.head? = some (ws, Event.init jt wt) ∧
    (∀ ev ∈ (startConn st ws jt wt sid inbound).2.tail, ev.2.isInit = false) ∧
    (∀ res, joinConn st ws2 t inbound2 = some res →
      ∀ ev ∈ res.2, ev.2.isInit = false) ∧
    (∀ res, watchConn st ws3 u = some res →
      ∀ ev ∈ res.2, ev.2.isInit = false) := by
  refine ⟨by simp [startConn], ?_, ?_, ?_⟩
  · simp only [startConn, List.tail_cons]
    exact playLoop_no_init ws .P1 [ws] inbound Connect4.new
  · intro res hres
    cases h1 : st.join t with
    | none =>
      simp only [joinConn, h1, Option.some.injEq] at hres
      subst hres
      intro ev hev
      simp at hev
      subst hev
      rfl
    | some sid' =>
      cases h2 : st.sessions sid' with
      | none =>
        simp only [joinConn, h1, h2] at hres
        exact absurd hres (by simp)
      | some sess =>
        simp only [joinConn, h1, h2, removeConn_attach, Option.some.injEq] at hres
        subst hres
        intro ev hev
        simp only [List.mem_append] at hev
        rcases hev with h | h
        · exact (replayEvents_shape ws2 sess.game ev h).2
        · exact playLoop_no_init ws2 .P2 (attach sess.connected ws2) inbound2
            sess.game ev h
  · intro res hres
    cases h1 : st.watch u with
    | none =>
      simp only [watchConn, h1, Option.some.injEq] at hres
      subst hres
      intro ev hev
      simp at hev
      subst hev
      rfl
    | some sid' =>
      cases h2 : st.sessions sid' with
      | none =>
        simp only [watchConn, h1, h2] at hres
        exact absurd hres (by simp)
      | some sess =>
        simp only [watchConn, h1, h2, removeConn_attach, Option.some.injEq] at hres
        subst hres
        intro ev hev
        exact (replayEvents_shape ws3 sess.game ev hev).2

/-- C8 witness: the second event a starter that plays column 3 sends (the
broadcast of its own move) is not an `init` event; the `init` event is the
head and goes to the starter. -/
theorem init_event_only_to_starter_witness :
    (startConn emptyServer 0 "j" "w" 0 [3]).2.head? = some (0, Event.init "j" "w") ∧
    (((0 : Conn), Event.play .P1 3 0) ∈ (startConn emptyServer 0 "j" "w" 0 [3]).2.tail ∧
     Event.isInit (Event.play .P1 3 0) = false) := by
  have h := init_event_only_to_starter emptyServer 0 1 2 "j" "w" "x" "y" 0 [3] []
  exact ⟨h.1, by decide, h.2.1 (0, Event.play .P1 3 0) (by decide)⟩

/-- C10: destroying a session removes only its two token-registry entries:
all other tokens still resolve as before, the session heap — every game and
every Connection Group — is untouched, and an already-joined PLAYER2 can
still play through the Board Engine and have the move broadcast to the
remaining Connection Group members. -/
theorem destroy_only_tokens (st : ServerState) (jt wt t : Token)
    (sid : SessionId) (sess : Session) (ws : Conn) (column row : Nat)
    (g' : Connect4) (hs : st.sessions sid = some sess)
    (hplay : sess.game.play .P2 column = .ok (row, g')) :
    (destroySession st jt wt).sessions = st.sessions ∧
    resolveJoin (destroySession st jt wt) jt = none ∧
    resolveWatch (destroySession st jt wt) wt = none ∧
    (t ≠ jt → resolveJoin (destroySession st jt wt) t = resolveJoin st t) ∧
    (t ≠ wt → resolveWatch (destroySession st jt wt) t = resolveWatch st t) ∧
    (destroySession st jt wt).sessions sid = some sess ∧
    playStep ws sess.game .P2 sess.connected column =
      (g', (sess.connected.map fun c => (c, Event.play .P2 column row)) ++
        if g'.lastPlayerWon then
          sess.connected.map fun c => (c, Event.win g'.lastPlayer)
        else []) := by
  refine ⟨rfl, ?_, ?_, ?_, ?_, hs,
    playStep_ok_eq ws sess.game .P2 sess.connected column row g' hplay⟩
  · simp [destroySession, resolveJoin]
  · simp [destroySession, resolveWatch]
  · intro h
    simp [destroySession, resolveJoin, h]
  · intro h
    simp [destroySession, resolveWatch, h]

/-- C10 witness: destroying the live server's session with its tokens "j"
and "w" leaves the session heap intact, and PLAYER2's reply in column 3
still broadcasts to the remaining group `[0]`. -/
theorem destroy_only_tokens_witness :
    (liveServer.sessions 0 = some ⟨⟨[(.P1, 3, 0)]⟩, [0]⟩ ∧
     (Connect4.mk [(.P1, 3, 0)]).play .P2 3 =
      .ok (1, ⟨[(.P1, 3, 0), (.P2, 3, 1)]⟩)) ∧
    ((destroySession liveServer "j" "w").sessions = liveServer.sessions ∧
     resolveJoin (destroySession liveServer "j" "w") "j" = none ∧
     resolveWatch (destroySession liveServer "j" "w") "w" = none ∧
     ("q" ≠ "j" → resolveJoin (destroySession liveServer "j" "w") "q" =
        resolveJoin liveServer "q") ∧
     ("q" ≠ "w" → resolveWatch (destroySession liveServer "j" "w") "q" =
        resolveWatch liveServer "q") ∧
     (destroySession liveServer "j" "w").sessions 0 =
        some ⟨⟨[(.P1, 3, 0)]⟩, [0]⟩ ∧
     playStep 1 ⟨[(.P1, 3, 0)]⟩ .P2 [0] 3 =
      (⟨[(.P1, 3, 0), (.P2, 3, 1)]⟩,
        (([0] : List Conn).map fun c => (c, Event.play .P2 3 1)) ++
        if (Connect4.mk [(.P1, 3, 0), (.P2, 3, 1)]).lastPlayerWon then
          ([0] : List Conn).map fun c =>
            (c, Event.win (Connect4.mk [(.P1, 3, 0), (.P2, 3, 1)]).lastPlayer)
        else [])) :=
  ⟨⟨rfl, by decide⟩,
   destroy_only_tokens liveServer "j" "w" "q" 0 ⟨⟨[(.P1, 3, 0)]⟩, [0]⟩ 1 3 1
     ⟨[(.P1, 3, 0), (.P2, 3, 1)]⟩ rfl (by decide)⟩
